import Mathlib

/-!
# File-Uploader: quota, ownership and the auth gate

A shallow embedding of `controllers/authController.js`, `controllers/fileController.js`,
`config/s3.js` and `models/File.js`.

* The two MongoDB collections and the S3 bucket are explicit state (`World`).  Every
  handler is a function `World → ... → World × Response`: the `await`s of the source
  become explicit sequencing, and a `throw` caught by the handler's `catch` becomes the
  `.error` branch that answers with the status of that `catch`.
* What the handlers cannot decide themselves is an input: the pure library functions
  (`jwt.verify`, `jwt.sign`, `comparePassword`, `encodeURIComponent`) are gathered in
  `Env`, and the result of each fallible write or gateway call of one request (does the
  S3 `send` resolve, does the insert succeed, which uuid is drawn) in `Outcome`.
* Queries (`find`, `findOne`, `findById`) are evaluated on the modelled collections;
  a route parameter `:id` that does not cast to an ObjectId makes `File.findOne` throw.
* `uploadCount` is an `Int`: `$inc: { uploadCount: -1 }` has no floor in the source.
-/

namespace FileUploader

/-! ## JavaScript string helpers -/

/-- JavaScript `s.startsWith(p)` on the character lists. -/
def startsWithChars : List Char → List Char → Bool
  | _, [] => true
  | [], _ :: _ => false
  | c :: cs, p :: ps => c == p && startsWithChars cs ps

/-- JavaScript `s.startsWith(p)`. -/
def startsWith (s p : String) : Bool :=
  startsWithChars s.data p.data

/-- JavaScript `s.split(sep)` for a one-character separator, on character lists. -/
def splitChars (sep : Char) : List Char → List (List Char)
  | [] => [[]]
  | c :: cs =>
    if c = sep then [] :: splitChars sep cs
    else
      match splitChars sep cs with
      | [] => [[c]]
      | x :: xs => (c :: x) :: xs

/-- JavaScript `s.split(" ")`. -/
def splitSpace (s : String) : List String :=
  (splitChars ' ' s.data).map String.mk

/-! ## Data model -/

/-- A document of the `User` collection, with the fields the controllers read.
`password` is `none` in a projection obtained with `.select("-password")`. -/
structure User where
  _id : String
  email : String
  name : String
  password : Option String
  uploadCount : Int
  deriving DecidableEq, Repr

/-- A document of the `File` collection (`models/File.js`, `FileSchema`). -/
structure File where
  _id : Nat
  userId : String
  originalName : String
  s3Key : String
  size : Nat
  mimeType : String
  uploadDate : Nat
  isDeleted : Bool
  deriving DecidableEq, Repr

/-- An object of the bucket. -/
structure S3Object where
  key : String
  body : List Nat
  contentType : String
  deriving DecidableEq, Repr

/-- A request sent to the object-store gateway by `config/s3.js`. -/
inductive S3Call where
  | putObject (key : String) (contentType : String)
  | deleteObject (key : String)
  | presign (operation : String) (key : String) (expiresIn : Nat)
      (disposition : Option String)
  deriving DecidableEq, Repr

/-- The state the handlers act on: both collections, the bucket, the gateway requests
sent so far, and the next `_id` MongoDB hands to an inserted `File` document. -/
structure World where
  users : List User
  files : List File
  bucket : List S3Object
  calls : List S3Call
  nextFileId : Nat
  deriving DecidableEq, Repr

/-- The file object multer attaches as `req.file`. -/
structure Upload where
  originalname : String
  mimetype : String
  buffer : List Nat
  size : Nat
  deriving DecidableEq, Repr

/-- The JSON bodies the controllers send. -/
inductive Body where
  | message (message : String)
  | statusMessage (status : String) (message : String)
  | statusMessageError (status : String) (message : String) (error : String)
  | loginData (token : String) (id : String) (email : String) (uploadsRemaining : Int)
  | checkData (message : String) (user : User)
  | fileData (file : File)
  | filesData (files : List (File × String)) (uploadRemaining : Int)
  | downloadData (url : String) (filename : String)
  | previewData (url : String) (mimeType : String)
  deriving DecidableEq, Repr

/-- What `res.status(code).json(body)` sends. -/
structure Response where
  status : Nat
  body : Body
  deriving DecidableEq, Repr

/-- Library functions the controllers call; `none` stands for a thrown error. -/
structure Env where
  jwtVerify : String → Option String
  jwtSign : String → Option String
  comparePassword : User → String → Option Bool
  encodeURIComponent : String → String

/-- What the outside world contributes to one request: the uuid drawn by `uuidv4()`,
the clock, whether each write or gateway call resolves, and the message of the error
thrown when one does not. -/
structure Outcome where
  uuid : String
  now : Nat
  etag : String
  putOk : Bool
  createOk : Bool
  updateOk : Bool
  s3DeleteOk : Bool
  deleteOneOk : Bool
  getSignedUrl : String → String → Option String → Option String
  errorMessage : String

/-! ## `config/s3.js` -/

/-- The key and ETag `uploadToS3` returns. -/
structure S3Result where
  key : String
  etag : String
  deriving DecidableEq, Repr

/-- A `PutObject` on the bucket: the object stored under the key is replaced. -/
def putObject (bucket : List S3Object) (obj : S3Object) : List S3Object :=
  bucket.filter (fun x => x.key != obj.key) ++ [obj]

/-- Source `uploadToS3(fileBuffer, fileName, contentType)`: one `PutObjectCommand`; an error
of the client is rethrown. -/
def uploadToS3 (w : World) (fileBuffer : List Nat) (fileName contentType : String)
    (o : Outcome) : World × Except String S3Result :=
  let w1 := { w with calls := w.calls ++ [S3Call.putObject fileName contentType] }
  if o.putOk then
    ({ w1 with bucket := putObject w1.bucket ⟨fileName, fileBuffer, contentType⟩ },
      .ok ⟨fileName, o.etag⟩)
  else (w1, .error o.errorMessage)

/-- Source `deleteFromS3(key)`: one `DeleteObjectCommand`; an error of the client is rethrown. -/
def deleteFromS3 (w : World) (key : String) (o : Outcome) : World × Except String Bool :=
  let w1 := { w with calls := w.calls ++ [S3Call.deleteObject key] }
  if o.s3DeleteOk then
    ({ w1 with bucket := w1.bucket.filter (fun x => x.key != key) }, .ok true)
  else (w1, .error o.errorMessage)

/-- Source `getPresignedUrl(operation, key, expiresIn, additionalParams)`: an operation other
than `getObject` and `putObject` throws before the gateway is asked. -/
def getPresignedUrl (w : World) (operation key : String) (expiresIn : Nat)
    (disposition : Option String) (o : Outcome) : World × Except String String :=
  if operation = "getObject" ∨ operation = "putObject" then
    let w1 := { w with calls := w.calls ++ [S3Call.presign operation key expiresIn disposition] }
    match o.getSignedUrl operation key disposition with
    | some url => (w1, .ok url)
    | none => (w1, .error o.errorMessage)
  else (w, .error ("Unsupported operation: " ++ operation))

/-! ## Collections -/

/-- Query `User.findById(id)`. -/
def findById (users : List User) (id : String) : Option User :=
  users.find? (fun u => u._id == id)

/-- Query `User.findOne({ email })`. -/
def findByEmail (users : List User) (email : String) : Option User :=
  users.find? (fun u => u.email == email)

/-- Projection `.select("-password")`. -/
def selectNoPassword (u : User) : User :=
  { u with password := none }

/-- The operator `$inc: { uploadCount: d }` applied to the document whose `_id` is `id`. -/
def incUploadCount (id : String) (d : Int) (u : User) : User :=
  if u._id = id then { u with uploadCount := u.uploadCount + d } else u

/-- Update `User.findByIdAndUpdate(id, { $inc: { uploadCount: d } })`: `_id` is the primary key;
an id that matches no document updates nothing and does not throw. -/
def findByIdAndUpdate (w : World) (id : String) (d : Int) (o : Outcome) :
    World × Except String Unit :=
  if o.updateOk then
    ({ w with users := w.users.map (incUploadCount id d) }, .ok ())
  else (w, .error o.errorMessage)

/-- The fields `initialUpload` passes to `File.create`. -/
structure NewFile where
  userId : String
  s3Key : String
  originalName : String
  mimeType : String
  size : Nat
  deriving DecidableEq, Repr

/-- Insert `File.create(doc)` under `FileSchema`: the `required` string paths reject the empty
string, `s3Key` carries a unique index, `uploadDate` and `isDeleted` take their
defaults, and the new document gets a fresh `_id`. -/
def createFile (w : World) (doc : NewFile) (o : Outcome) : World × Except String File :=
  if doc.originalName = "" ∨ doc.s3Key = "" ∨ doc.mimeType = "" then
    (w, .error "File validation failed")
  else if w.files.any (fun f => f.s3Key == doc.s3Key) then
    (w, .error "E11000 duplicate key error")
  else if o.createOk then
    let f : File :=
      { _id := w.nextFileId, userId := doc.userId, originalName := doc.originalName,
        s3Key := doc.s3Key, size := doc.size, mimeType := doc.mimeType,
        uploadDate := o.now, isDeleted := false }
    ({ w with files := w.files ++ [f], nextFileId := w.nextFileId + 1 }, .ok f)
  else (w, .error o.errorMessage)

/-- Removal `file.deleteOne()`: removes the document with this `_id` (the primary key). -/
def deleteOne (w : World) (file : File) (o : Outcome) : World × Except String Unit :=
  if o.deleteOneOk then
    ({ w with files := w.files.filter (fun f => f._id != file._id) }, .ok ())
  else (w, .error o.errorMessage)

/-! ## `controllers/authController.js` -/

/-- Source `signToken(id)`: `jwt.sign({ id }, secret, { expiresIn: "7d" })`. -/
def signToken (env : Env) (id : String) : Option String :=
  env.jwtSign id

/-- Source `login`: the `try` body is `none` when something in it throws, and the
`catch` then answers 400. -/
def login (env : Env) (w : World) (email password : String) : Response :=
  let attempt : Option Response :=
    match findByEmail w.users email with
    | none => some ⟨401, .message "Invalid email or password"⟩
    | some user =>
      match env.comparePassword user password with
      | none => none
      | some false => some ⟨401, .message "Invalid email or password"⟩
      | some true =>
        match signToken env user._id with
        | none => none
        | some token => some ⟨200, .loginData token user._id user.email user.uploadCount⟩
  attempt.getD ⟨400, .message "helloo"⟩

/-- The two ways `protect` ends: `next()` with `req.user` set, or a response. -/
inductive Gate where
  | next (user : User)
  | respond (response : Response)
  deriving DecidableEq, Repr

/-- The `token` variable of `protect`: assigned `authorization.split(" ")[1]` when the
header is present and `startsWith("Bearer")`, otherwise left `undefined` (`none`). -/
def bearerToken (authorization : Option String) : Option String :=
  match authorization with
  | none => none
  | some h => if h ≠ "" ∧ startsWith h "Bearer" then (splitSpace h)[1]? else none

/-- Source `protect`: `jwt.verify` throws on an `undefined` or unverifiable token and
the `catch` answers 401 "Unauthorized"; a verified id that matches no user answers 401
"User no longer exists"; otherwise `req.user` is the user without the password. -/
def protect (env : Env) (w : World) (authorization : Option String) : Gate :=
  match (bearerToken authorization).bind env.jwtVerify with
  | none => .respond ⟨401, .message "Unauthorized"⟩
  | some id =>
    match findById w.users id with
    | none => .respond ⟨401, .message "User no longer exists"⟩
    | some currentUser => .next (selectNoPassword currentUser)

/-- Source `check`. -/
def check (user : User) : Response :=
  ⟨200, .checkData "User authenticated successfully" user⟩

/-! ## `controllers/fileController.js` -/

/-- The quota constant of `initialUpload` and `getUserFiles`. -/
def uploadLimit : Int := 15

/-- The template literal of `initialUpload`: the text `user-uploads/user-`, the user
id, a slash, the uuid, a dash, and the original name. -/
def fileKey (userId uuid originalName : String) : String :=
  "user-uploads/user-" ++ userId ++ "/" ++ uuid ++ "-" ++ originalName

/-- The `Promise.all` of `getUserFiles`: one `getPresignedUrl("getObject", key, 3600)`
per file; every call is issued, and the first rejection rejects the whole. -/
def signAll (w : World) (o : Outcome) : List File → World × Except String (List (File × String))
  | [] => (w, .ok [])
  | f :: fs =>
    match getPresignedUrl w "getObject" f.s3Key 3600 none o with
    | (w1, .error e) => ((signAll w1 o fs).1, .error e)
    | (w1, .ok url) =>
      match signAll w1 o fs with
      | (w2, .error e) => (w2, .error e)
      | (w2, .ok rest) => (w2, .ok ((f, url) :: rest))

/-- Source `getUserFiles`. -/
def getUserFiles (w : World) (user : User) (o : Outcome) : World × Response :=
  let files := w.files.filter (fun f => f.userId == user._id && f.isDeleted == false)
  match signAll w o files with
  | (w1, .error e) => (w1, ⟨500, .statusMessage "error" e⟩)
  | (w1, .ok fileWithUrls) =>
    (w1, ⟨200, .filesData fileWithUrls (uploadLimit - user.uploadCount)⟩)

/-- Source `initialUpload`. -/
def initialUpload (w : World) (user : User) (file : Option Upload) (o : Outcome) :
    World × Response :=
  match file with
  | none => (w, ⟨400, .statusMessage "error" "No file uploaded"⟩)
  | some f =>
    if user.uploadCount ≥ uploadLimit then
      (w, ⟨400, .statusMessage "error" "You have reached your upload limit"⟩)
    else
      let key := fileKey user._id o.uuid f.originalname
      match uploadToS3 w f.buffer key f.mimetype o with
      | (w1, .error e) => (w1, ⟨500, .statusMessage "error" e⟩)
      | (w1, .ok _) =>
        match createFile w1 ⟨user._id, key, f.originalname, f.mimetype, f.size⟩ o with
        | (w2, .error e) => (w2, ⟨500, .statusMessage "error" e⟩)
        | (w2, .ok newFile) =>
          match findByIdAndUpdate w2 user._id 1 o with
          | (w3, .error e) => (w3, ⟨500, .statusMessage "error" e⟩)
          | (w3, .ok _) => (w3, ⟨201, .fileData newFile⟩)

/-- The 404 answer shared by `deleteFile`, `getDownloadUrl` and `getPreviewUrl`. -/
def fileNotFound : Response :=
  ⟨404, .statusMessage "error" "File not found"⟩

/-- The route parameter `req.params.id` as the `_id` condition of `File.findOne` sees
it: either the string casts to an ObjectId, or it does not and the query rejects with
a `CastError` before anything is looked up. -/
inductive ParamId where
  | objectId (id : Nat)
  | uncastable (raw : String)
  deriving DecidableEq, Repr

/-- The message of the `CastError` thrown for a route parameter that is no ObjectId. -/
def castErrorMessage (raw : String) : String :=
  "Cast to ObjectId failed for value \"" ++ raw ++
    "\" (type string) at path \"_id\" for model \"File\""

/-- Source `deleteFile`: the lookup is by `_id` and `userId` (no `isDeleted` filter);
a parameter that is no ObjectId makes the lookup throw, and the `catch` answers 500. -/
def deleteFile (w : World) (user : User) (id : ParamId) (o : Outcome) : World × Response :=
  match id with
  | .uncastable raw => (w, ⟨500, .statusMessage "error" (castErrorMessage raw)⟩)
  | .objectId oid =>
    match w.files.find? (fun f => f._id == oid && f.userId == user._id) with
    | none => (w, fileNotFound)
    | some file =>
      match deleteFromS3 w file.s3Key o with
      | (w1, .error e) => (w1, ⟨500, .statusMessage "error" e⟩)
      | (w1, .ok _) =>
        match deleteOne w1 file o with
        | (w2, .error e) => (w2, ⟨500, .statusMessage "error" e⟩)
        | (w2, .ok _) =>
          match findByIdAndUpdate w2 user._id (-1) o with
          | (w3, .error e) => (w3, ⟨500, .statusMessage "error" e⟩)
          | (w3, .ok _) =>
            (w3, ⟨200, .statusMessage "success" "File deleted successfully"⟩)

/-- The lookup of `getDownloadUrl` and `getPreviewUrl` for a parameter that casts to
an ObjectId: `File.findOne` by `_id`, `userId` and `isDeleted: false`. -/
def findActive (w : World) (user : User) (id : Nat) : Option File :=
  w.files.find? (fun f => f._id == id && f.userId == user._id && f.isDeleted == false)

/-- Source `getDownloadUrl`; a parameter that is no ObjectId makes the lookup throw,
and the `catch` answers 500. -/
def getDownloadUrl (env : Env) (w : World) (user : User) (id : ParamId) (o : Outcome) :
    World × Response :=
  match id with
  | .uncastable raw =>
    (w, ⟨500, .statusMessageError "error" "Failed to generate download URL"
      (castErrorMessage raw)⟩)
  | .objectId oid =>
    match findActive w user oid with
    | none => (w, fileNotFound)
    | some file =>
      let disposition :=
        "attachment; filename=\"" ++ env.encodeURIComponent file.originalName ++ "\""
      match getPresignedUrl w "getObject" file.s3Key 3600 (some disposition) o with
      | (w1, .error e) =>
        (w1, ⟨500, .statusMessageError "error" "Failed to generate download URL" e⟩)
      | (w1, .ok url) => (w1, ⟨200, .downloadData url file.originalName⟩)

/-- Source `getPreviewUrl`; a parameter that is no ObjectId makes the lookup throw,
and the `catch` answers 500. -/
def getPreviewUrl (w : World) (user : User) (id : ParamId) (o : Outcome) :
    World × Response :=
  match id with
  | .uncastable raw =>
    (w, ⟨500, .statusMessageError "error" "Failed to generate preview URL"
      (castErrorMessage raw)⟩)
  | .objectId oid =>
    match findActive w user oid with
    | none => (w, fileNotFound)
    | some file =>
      match getPresignedUrl w "getObject" file.s3Key 3600 none o with
      | (w1, .error e) =>
        (w1, ⟨500, .statusMessageError "error" "Failed to generate preview URL" e⟩)
      | (w1, .ok url) => (w1, ⟨200, .previewData url file.mimeType⟩)

/-! ## `routes/fileRoutes.js` -/

/-- The routes mounted under `/api/files`. -/
inductive Action where
  | list
  | upload (file : Option Upload)
  | delete (id : ParamId)
  | download (id : ParamId)
  | preview (id : ParamId)
  deriving DecidableEq, Repr

/-- One request to `/api/files`. -/
structure Request where
  authorization : Option String
  action : Action
  outcome : Outcome

/-- The router: `router.use(protect)`, then the handler of the route. -/
def handle (env : Env) (w : World) (r : Request) : World × Response :=
  match protect env w r.authorization with
  | .respond response => (w, response)
  | .next user =>
    match r.action with
    | .list => getUserFiles w user r.outcome
    | .upload file => initialUpload w user file r.outcome
    | .delete id => deleteFile w user id r.outcome
    | .download id => getDownloadUrl env w user id r.outcome
    | .preview id => getPreviewUrl w user id r.outcome

/-- Requests served one after the other; the responses are returned in order. -/
def run (env : Env) : World → List Request → World × List Response
  | w, [] => (w, [])
  | w, r :: rs =>
    let step := handle env w r
    let rest := run env step.1 rs
    (rest.1, step.2 :: rest.2)

/-! ## Notions the claims are stated with -/

/-- The number of `File` records owned by `uid` with `isDeleted` false. -/
def activeCount (files : List File) (uid : String) : Nat :=
  files.countP (fun f => f.userId == uid && f.isDeleted == false)

/-- The stored `uploadCount` of the user with id `uid`, if there is one. -/
def storedCount (w : World) (uid : String) : Option Int :=
  (findById w.users uid).map User.uploadCount

/-- What MongoDB guarantees about `_id` in the `File` collection: ids are pairwise
different and below the next one to be handed out. -/
def FreshIds (w : World) : Prop :=
  (w.files.map File._id).Nodup ∧ ∀ f ∈ w.files, f._id < w.nextFileId

/-- Every write and gateway call of the request resolves. -/
def Outcome.allOk (o : Outcome) : Prop :=
  o.putOk = true ∧ o.createOk = true ∧ o.updateOk = true ∧ o.s3DeleteOk = true ∧
    o.deleteOneOk = true

/-- The request carries a token that `jwt.verify` decodes to the id `uid`. -/
def Request.byUser (env : Env) (r : Request) (uid : String) : Prop :=
  (bearerToken r.authorization).bind env.jwtVerify = some uid

instance (env : Env) (r : Request) (uid : String) : Decidable (r.byUser env uid) :=
  inferInstanceAs (Decidable ((bearerToken r.authorization).bind env.jwtVerify = some uid))

instance (o : Outcome) : Decidable o.allOk :=
  inferInstanceAs (Decidable (o.putOk = true ∧ o.createOk = true ∧ o.updateOk = true ∧
    o.s3DeleteOk = true ∧ o.deleteOneOk = true))

/-- Whether the request goes to `initialUpload`. -/
def Action.isUpload : Action → Bool
  | .upload _ => true
  | _ => false

/-- Whether the request goes to `deleteFile`. -/
def Action.isDelete : Action → Bool
  | .delete _ => true
  | _ => false

/-- The number of upload requests of the sequence that were answered 201. -/
def uploads201 (rs : List Request) (responses : List Response) : Nat :=
  (rs.zip responses).countP (fun p => p.1.action.isUpload && p.2.status == 201)

/-- The number of delete requests of the sequence that were answered 200. -/
def deletes200 (rs : List Request) (responses : List Response) : Nat :=
  (rs.zip responses).countP (fun p => p.1.action.isDelete && p.2.status == 200)

/-- What the answer to one request says about the caller's counter: plus one for an
upload answered 201, minus one for a delete answered 200. -/
def delta (a : Action) (status : Nat) : Int :=
  (if (a.isUpload && status == 201) = true then 1 else 0) -
    (if (a.isDelete && status == 200) = true then 1 else 0)

/-- The entries of a listing answer (none for any other body). -/
def listedFiles (r : Response) : List (File × String) :=
  match r.body with
  | .filesData files _ => files
  | _ => []

/-- No record of the `File` collection carries the `isDeleted` flag. -/
def NoneFlagged (w : World) : Prop :=
  ∀ f ∈ w.files, f.isDeleted = false

/-- The user stored under `uid`, if any, has an `uploadCount` equal to the number of
active `File` records owned by `uid`. -/
def CountOK (w : World) (uid : String) : Prop :=
  ∀ usr, findById w.users uid = some usr → usr.uploadCount = activeCount w.files uid

/-- Every record owned by `uid` has `isDeleted` false. -/
def UnflaggedOf (w : World) (uid : String) : Prop :=
  ∀ f ∈ w.files, f.userId = uid → f.isDeleted = false

/-- No record has the id `id`, and the id has already been handed out. -/
def Gone (w : World) (id : Nat) : Prop :=
  id < w.nextFileId ∧ ∀ f ∈ w.files, f._id ≠ id

/-- What one request of `caller` does to the two collections, from `w` to `w2`, when
it is answered with `status`: nothing (and then it is neither an upload answered 201
nor a delete answered 200); or one record owned by the caller is inserted under the
next id, after the quota test passed, and the caller's counter is incremented with a
201, unless that update failed; or the request is the delete of a record owned by the caller, the
record is removed and the caller's counter is decremented with a 200, unless that
update failed. -/
def DbEffect (w w2 : World) (caller : User) (a : Action) (updateOk : Bool)
    (status : Nat) : Prop :=
  (w2.files = w.files ∧ w2.users = w.users ∧ w2.nextFileId = w.nextFileId ∧
      ¬ (a.isUpload = true ∧ status = 201) ∧ ¬ (a.isDelete = true ∧ status = 200)) ∨
  (∃ f : File, a.isUpload = true ∧ a.isDelete = false ∧ f._id = w.nextFileId ∧
      f.userId = caller._id ∧ f.isDeleted = false ∧ caller.uploadCount < 15 ∧
      w2.files = w.files ++ [f] ∧ w2.nextFileId = w.nextFileId + 1 ∧
      ((updateOk = true ∧ w2.users = w.users.map (incUploadCount caller._id 1) ∧
          status = 201) ∨
        (updateOk = false ∧ w2.users = w.users ∧ status = 500))) ∨
  (∃ file : File, a = Action.delete (.objectId file._id) ∧ a.isUpload = false ∧
      file ∈ w.files ∧
      file.userId = caller._id ∧
      w2.files = w.files.filter (fun f => f._id != file._id) ∧
      w2.nextFileId = w.nextFileId ∧
      ((updateOk = true ∧ w2.users = w.users.map (incUploadCount caller._id (-1)) ∧
          status = 200) ∨
        (updateOk = false ∧ w2.users = w.users ∧ status = 500)))

/-! ## Concrete inputs -/

/-- A verifier that accepts `tok` for user `u1`, `tok2` for `u2`, and `ghost` for an
id that matches no user. -/
def demoEnv : Env where
  jwtVerify := fun t =>
    if t = "tok" then some "u1" else if t = "tok2" then some "u2"
    else if t = "ghost" then some "u9" else none
  jwtSign := fun id => some ("jwt-" ++ id)
  comparePassword := fun u p => some (u.password == some p)
  encodeURIComponent := fun s => s

/-- A registered user who has uploaded nothing. -/
def alice : User := ⟨"u1", "a@x.com", "Alice", some "pw1", 0⟩

/-- A second user, owner of one file. -/
def bob : User := ⟨"u2", "b@x.com", "Bob", some "pw2", 1⟩

/-- A user who has used the whole quota. -/
def carol : User := ⟨"u3", "c@x.com", "Carol", some "pw3", 15⟩

/-- The file of `bob`. -/
def bobFile : File :=
  ⟨0, "u2", "b.txt", "user-uploads/user-u2/uuid-0-b.txt", 3, "text/plain", 1, false⟩

/-- A world with `alice` only and an empty `File` collection. -/
def emptyWorld : World := ⟨[alice], [], [], [], 0⟩

/-- A world with `alice` and `bob`, where `bob` owns `bobFile`. -/
def demoWorld : World :=
  ⟨[alice, bob], [bobFile], [⟨bobFile.s3Key, [1, 2, 3], "text/plain"⟩], [], 1⟩

/-- An outcome in which every call resolves. -/
def okOutcome : Outcome :=
  ⟨"uuid-1", 7, "etag", true, true, true, true, true,
    fun _ k _ => some ("https://s3/" ++ k), "boom"⟩

/-- An outcome in which the gateway rejects the `PutObject`. -/
def putFails : Outcome :=
  { okOutcome with putOk := false }

/-- A ten-byte text file. -/
def docTxt : Upload := ⟨"doc.txt", "text/plain", [1, 2, 3, 4, 5, 6, 7, 8, 9, 10], 10⟩

/-- An upload of `docTxt` with the token of `alice`, every call resolving. -/
def uploadReq : Request := ⟨some "Bearer tok", .upload (some docTxt), okOutcome⟩

/-- A second upload of `docTxt` by `alice`, for which another uuid is drawn. -/
def uploadReq2 : Request :=
  ⟨some "Bearer tok", .upload (some docTxt), { okOutcome with uuid := "uuid-2" }⟩

/-- A delete with the token of `alice`, every call resolving. -/
def deleteReq (id : Nat) : Request :=
  ⟨some "Bearer tok", .delete (.objectId id), okOutcome⟩

/-- An upload of `docTxt` with the token of `bob`, every call resolving. -/
def uploadReqBob : Request := ⟨some "Bearer tok2", .upload (some docTxt), okOutcome⟩

/-- A world with `alice` and `bob` before either has uploaded anything. -/
def freshWorld : World := ⟨[alice, { bob with uploadCount := 0 }], [], [], [], 0⟩

/-! ## Single-request theorems -/

/-- C2: an upload that carries a file while the resolved user has `uploadCount >= 15`
is answered 400 "You have reached your upload limit", and the world (bucket, gateway
requests, `File` records, users) is left exactly as it was. -/
theorem initialUpload_quota_reached (w : World) (user : User) (f : Upload) (o : Outcome)
    (h : user.uploadCount ≥ 15) :
    initialUpload w user (some f) o =
      (w, ⟨400, .statusMessage "error" "You have reached your upload limit"⟩) := by
  have h15 : user.uploadCount ≥ uploadLimit := h
  simp [initialUpload, h15]

/-- Witness for C2, with a user at the quota. -/
theorem initialUpload_quota_reached_witness :
    carol.uploadCount ≥ 15 ∧
    initialUpload demoWorld carol (some docTxt) okOutcome =
      (demoWorld, ⟨400, .statusMessage "error" "You have reached your upload limit"⟩) :=
  ⟨by decide, initialUpload_quota_reached demoWorld carol docTxt okOutcome (by decide)⟩

/-- C6: when the quota check passes and the gateway rejects the `PutObject`,
`initialUpload` answers 500 and the `File` collection, the users (with their
`uploadCount`), the bucket and the id counter are unchanged. -/
theorem initialUpload_put_failure (w : World) (user : User) (f : Upload) (o : Outcome)
    (hq : user.uploadCount < 15) (hfail : o.putOk = false) :
    (initialUpload w user (some f) o).2.status = 500 ∧
    (initialUpload w user (some f) o).1.files = w.files ∧
    (initialUpload w user (some f) o).1.users = w.users ∧
    (initialUpload w user (some f) o).1.bucket = w.bucket ∧
    (initialUpload w user (some f) o).1.nextFileId = w.nextFileId := by
  have h15 : ¬ user.uploadCount ≥ uploadLimit := by
    simpa [uploadLimit] using hq
  simp [initialUpload, h15, uploadToS3, hfail]

/-- Witness for C6: `alice` uploads while the gateway is down. -/
theorem initialUpload_put_failure_witness :
    (initialUpload demoWorld alice (some docTxt) putFails).2.status = 500 ∧
    (initialUpload demoWorld alice (some docTxt) putFails).1.files = demoWorld.files ∧
    (initialUpload demoWorld alice (some docTxt) putFails).1.users = demoWorld.users ∧
    (initialUpload demoWorld alice (some docTxt) putFails).1.bucket = demoWorld.bucket ∧
    (initialUpload demoWorld alice (some docTxt) putFails).1.nextFileId =
      demoWorld.nextFileId :=
  initialUpload_put_failure demoWorld alice docTxt putFails (by decide) rfl

/-- Two records of a collection whose ids are pairwise different are the same record
as soon as they have the same id. -/
theorem eq_of_id_eq {files : List File} (hnd : (files.map File._id).Nodup)
    {f g : File} (hf : f ∈ files) (hg : g ∈ files) (h : f._id = g._id) : f = g :=
  List.inj_on_of_nodup_map hnd hf hg h

/-- The lookup of `deleteFile` finds nothing when no record has both the id and the
owner asked for. -/
theorem deleteFile_of_no_match (w : World) (user : User) (id : Nat) (o : Outcome)
    (h : ∀ f ∈ w.files, f._id = id → f.userId ≠ user._id) :
    deleteFile w user (.objectId id) o = (w, fileNotFound) := by
  have hnone : w.files.find? (fun f => f._id == id && f.userId == user._id) = none := by
    rw [List.find?_eq_none]
    intro f hf
    have := h f hf
    simp only [Bool.and_eq_true, beq_iff_eq, not_and]
    exact this
  simp [deleteFile, hnone]

/-- C3 as stated fails: the route parameter `abc` names no record, yet the delete
request of `alice` for it is answered 500, not the 404 "File not found" that the
request of `alice` for the file of `bob` gets. -/
theorem deleteFile_uncastable_not_404 :
    (∀ f ∈ demoWorld.files, ParamId.uncastable "abc" ≠ ParamId.objectId f._id) ∧
    deleteFile demoWorld alice (.objectId 0) okOutcome = (demoWorld, fileNotFound) ∧
    (deleteFile demoWorld alice (.uncastable "abc") okOutcome).2.status = 500 ∧
    (deleteFile demoWorld alice (.uncastable "abc") okOutcome).2 ≠
      (deleteFile demoWorld alice (.objectId 0) okOutcome).2 := by
  decide

/-- C3 amended: a delete request whose id names a record owned by another user is
answered 404 "File not found", exactly as a request whose id casts to an ObjectId and
names no record, and the world (bucket, gateway requests, `File` records, every
user's `uploadCount`) is unchanged. -/
theorem deleteFile_foreign_not_found (w : World) (user : User) (id : Nat) (o : Outcome)
    (file : File) (hnd : (w.files.map File._id).Nodup) (hmem : file ∈ w.files)
    (hid : file._id = id) (hown : file.userId ≠ user._id) :
    deleteFile w user (.objectId id) o = (w, fileNotFound) ∧
    ∀ missing : Nat, (∀ f ∈ w.files, f._id ≠ missing) →
      deleteFile w user (.objectId missing) o = (w, fileNotFound) := by
  constructor
  · apply deleteFile_of_no_match
    intro f hf hfid
    have hfe : f = file := eq_of_id_eq hnd hf hmem (hfid.trans hid.symm)
    rw [hfe]
    exact hown
  · intro missing hmiss
    apply deleteFile_of_no_match
    intro f hf hfid
    exact absurd hfid (hmiss f hf)

/-- Witness for C3 amended: `alice` asks to delete the file of `bob`. -/
theorem deleteFile_foreign_not_found_witness :
    deleteFile demoWorld alice (.objectId 0) okOutcome = (demoWorld, fileNotFound) ∧
    ∀ missing : Nat, (∀ f ∈ demoWorld.files, f._id ≠ missing) →
      deleteFile demoWorld alice (.objectId missing) okOutcome = (demoWorld, fileNotFound) :=
  deleteFile_foreign_not_found demoWorld alice 0 okOutcome bobFile (by decide) (by decide)
    rfl (by decide)

/-- C4 as stated fails: a request without a header and a request whose verified token
names no stored user are both rejected, with different bodies. -/
theorem protect_rejections_differ :
    protect demoEnv demoWorld none = .respond ⟨401, .message "Unauthorized"⟩ ∧
    protect demoEnv demoWorld (some "Bearer ghost") =
      .respond ⟨401, .message "User no longer exists"⟩ ∧
    (⟨401, .message "Unauthorized"⟩ : Response) ≠ ⟨401, .message "User no longer exists"⟩ := by
  decide

/-- C4 amended: every response by which `protect` rejects has status 401; its body is
the message "Unauthorized" when the header yields no token that verifies, and the
message "User no longer exists" when the token verifies to an id that matches no stored
user. -/
theorem protect_rejection_shape (env : Env) (w : World) (authorization : Option String)
    (response : Response) (h : protect env w authorization = .respond response) :
    response.status = 401 ∧
    (((bearerToken authorization).bind env.jwtVerify = none ∧
        response.body = .message "Unauthorized") ∨
      (∃ id, (bearerToken authorization).bind env.jwtVerify = some id ∧
        findById w.users id = none ∧ response.body = .message "User no longer exists")) := by
  unfold protect at h
  split at h
  · rename_i hd
    simp only [Gate.respond.injEq] at h
    subst h
    exact ⟨rfl, Or.inl ⟨hd, rfl⟩⟩
  · rename_i id hd
    split at h
    · rename_i hu
      simp only [Gate.respond.injEq] at h
      subst h
      exact ⟨rfl, Or.inr ⟨id, hd, hu, rfl⟩⟩
    · exact absurd h (by simp)

/-- Witness for C4 amended: the rejection of a token whose user does not exist. -/
theorem protect_rejection_shape_witness :
    (⟨401, .message "User no longer exists"⟩ : Response).status = 401 ∧
    (((bearerToken (some "Bearer ghost")).bind demoEnv.jwtVerify = none ∧
        (⟨401, .message "User no longer exists"⟩ : Response).body = .message "Unauthorized") ∨
      (∃ id, (bearerToken (some "Bearer ghost")).bind demoEnv.jwtVerify = some id ∧
        findById demoWorld.users id = none ∧
        (⟨401, .message "User no longer exists"⟩ : Response).body =
          .message "User no longer exists")) :=
  protect_rejection_shape demoEnv demoWorld (some "Bearer ghost")
    ⟨401, .message "User no longer exists"⟩ (by decide)

/-- C7 fails on the code: the header `BearerX tok`, whose scheme word is not `Bearer`,
passes `startsWith("Bearer")`, its second segment is a valid token of `alice`, and
`protect` calls `next` with `alice` as `req.user`. -/
theorem protect_accepts_BearerX :
    protect demoEnv demoWorld (some "BearerX tok") = .next (selectNoPassword alice) := by
  decide

/-- C8 fails on the code: for `alice`, whose `uploadCount` is 0, a successful login
reports `uploadsRemaining` 0 (the `uploadCount` itself) while `getUserFiles` reports
`uploadRemaining` 15 for the same stored user. -/
theorem login_reports_uploadCount :
    login demoEnv emptyWorld "a@x.com" "pw1" =
      ⟨200, .loginData "jwt-u1" "u1" "a@x.com" 0⟩ ∧
    (getUserFiles emptyWorld alice okOutcome).2 = ⟨200, .filesData [] 15⟩ := by
  decide

/-- C10: for one user id and any two original names, the keys built from two uuids of
the same length are different whenever the uuids are different. -/
theorem fileKey_ne_of_uuid_ne (userId uuid1 uuid2 name1 name2 : String)
    (hlen : uuid1.length = uuid2.length) (hne : uuid1 ≠ uuid2) :
    fileKey userId uuid1 name1 ≠ fileKey userId uuid2 name2 := by
  intro h
  apply hne
  have hd := congrArg String.data h
  simp only [fileKey, String.data_append, List.append_assoc] at hd
  have h1 := List.append_cancel_left hd
  have h2 := List.append_cancel_left h1
  have h3 := List.append_cancel_left h2
  have hl : uuid1.data.length = uuid2.data.length := hlen
  have h4 := (List.append_inj h3 hl).1
  exact String.ext h4

/-- Witness for C10: two uploads of `doc.txt` by the same user. -/
theorem fileKey_ne_of_uuid_ne_witness :
    fileKey "u1" "uuid-1" "doc.txt" ≠ fileKey "u1" "uuid-2" "doc.txt" :=
  fileKey_ne_of_uuid_ne "u1" "uuid-1" "uuid-2" "doc.txt" "doc.txt" (by decide) (by decide)

/-! ## The auth gate -/

/-- Every rejection by `protect` carries status 401. -/
theorem protect_rejection_status (env : Env) (w : World) (authorization : Option String)
    (response : Response) (h : protect env w authorization = .respond response) :
    response.status = 401 := by
  unfold protect at h
  split at h
  · simp only [Gate.respond.injEq] at h
    subst h
    rfl
  · split at h
    · simp only [Gate.respond.injEq] at h
      subst h
      rfl
    · exact absurd h (by simp)

/-- A user found by id has that id. -/
theorem findById_id {users : List User} {id : String} {u : User}
    (h : findById users id = some u) : u._id = id := by
  have := List.find?_some h
  simpa using this

/-- When `protect` calls `next`, the token verified to the id of a stored user, and
`req.user` is that user without the password. -/
theorem protect_next (env : Env) (w : World) (authorization : Option String) (user : User)
    (h : protect env w authorization = .next user) :
    ∃ cu : User, (bearerToken authorization).bind env.jwtVerify = some cu._id ∧
      findById w.users cu._id = some cu ∧ user = selectNoPassword cu := by
  unfold protect at h
  split at h
  · exact absurd h (by simp)
  · rename_i id hd
    split at h
    · exact absurd h (by simp)
    · rename_i cu hu
      simp only [Gate.next.injEq] at h
      have hid := findById_id hu
      refine ⟨cu, ?_, ?_, h.symm⟩
      · rw [hd, hid]
      · rw [hid]; exact hu

/-! ## The effect of one request on the collections -/

/-- Effect of `initialUpload` on the collections. -/
theorem initialUpload_effect (w : World) (user : User) (file : Option Upload) (o : Outcome) :
    DbEffect w (initialUpload w user file o).1 user (.upload file) o.updateOk
      (initialUpload w user file o).2.status := by
  cases file with
  | none => exact Or.inl (by simp [initialUpload, Action.isDelete])
  | some f =>
    by_cases hq : user.uploadCount ≥ uploadLimit
    · exact Or.inl (by simp [initialUpload, hq, Action.isDelete])
    by_cases hput : o.putOk = true
    swap
    · exact Or.inl (by simp [initialUpload, hq, uploadToS3, hput, Action.isDelete])
    by_cases hval : f.originalname = "" ∨
        fileKey user._id o.uuid f.originalname = "" ∨ f.mimetype = ""
    · exact Or.inl (by simp [initialUpload, hq, uploadToS3, hput, createFile, hval,
        Action.isDelete])
    by_cases hdup : (w.files.any
        (fun g => g.s3Key == fileKey user._id o.uuid f.originalname)) = true
    · exact Or.inl (by simp [initialUpload, hq, uploadToS3, hput, createFile, hval, hdup,
        Action.isDelete])
    by_cases hcreate : o.createOk = true
    swap
    · exact Or.inl (by simp [initialUpload, hq, uploadToS3, hput, createFile, hval, hdup,
        hcreate, Action.isDelete])
    have hq15 : user.uploadCount < 15 := by
      simpa [uploadLimit] using hq
    refine Or.inr (Or.inl ⟨⟨w.nextFileId, user._id, f.originalname,
      fileKey user._id o.uuid f.originalname, f.size, f.mimetype, o.now, false⟩,
      rfl, rfl, rfl, rfl, rfl, hq15, ?_⟩)
    by_cases hupd : o.updateOk = true
    · simp [initialUpload, hq, uploadToS3, hput, createFile, hval, hdup, hcreate,
        findByIdAndUpdate, hupd]
    · simp [initialUpload, hq, uploadToS3, hput, createFile, hval, hdup, hcreate,
        findByIdAndUpdate, hupd]

/-- Effect of `deleteFile` on the collections. -/
theorem deleteFile_effect (w : World) (user : User) (id : ParamId) (o : Outcome) :
    DbEffect w (deleteFile w user id o).1 user (.delete id) o.updateOk
      (deleteFile w user id o).2.status := by
  cases id with
  | uncastable raw => exact Or.inl (by simp [deleteFile, Action.isUpload])
  | objectId oid =>
    cases hfind : w.files.find? (fun f => f._id == oid && f.userId == user._id) with
    | none => exact Or.inl (by simp [deleteFile, hfind, fileNotFound, Action.isUpload])
    | some file =>
      have hmem : file ∈ w.files := List.mem_of_find?_eq_some hfind
      have hprop := List.find?_some hfind
      simp only [Bool.and_eq_true, beq_iff_eq] at hprop
      by_cases hs3 : o.s3DeleteOk = true
      swap
      · exact Or.inl (by simp [deleteFile, hfind, deleteFromS3, hs3, Action.isUpload])
      by_cases hone : o.deleteOneOk = true
      swap
      · exact Or.inl (by simp [deleteFile, hfind, deleteFromS3, hs3, deleteOne, hone,
          Action.isUpload])
      refine Or.inr (Or.inr ⟨file, by rw [hprop.1], rfl, hmem, hprop.2, ?_⟩)
      by_cases hupd : o.updateOk = true
      · simp [deleteFile, hfind, deleteFromS3, hs3, deleteOne, hone, findByIdAndUpdate,
          hupd]
      · simp [deleteFile, hfind, deleteFromS3, hs3, deleteOne, hone, findByIdAndUpdate,
          hupd]

/-- A call of `getPresignedUrl` leaves everything but the list of gateway requests. -/
theorem getPresignedUrl_db (w : World) (operation key : String) (expiresIn : Nat)
    (disposition : Option String) (o : Outcome) :
    (getPresignedUrl w operation key expiresIn disposition o).1.files = w.files ∧
    (getPresignedUrl w operation key expiresIn disposition o).1.users = w.users ∧
    (getPresignedUrl w operation key expiresIn disposition o).1.nextFileId = w.nextFileId := by
  unfold getPresignedUrl
  split
  · split <;> exact ⟨rfl, rfl, rfl⟩
  · exact ⟨rfl, rfl, rfl⟩

/-- The fan-out of `getUserFiles` leaves both collections as they are. -/
theorem signAll_db (o : Outcome) (fs : List File) :
    ∀ w : World, (signAll w o fs).1.files = w.files ∧ (signAll w o fs).1.users = w.users ∧
      (signAll w o fs).1.nextFileId = w.nextFileId := by
  induction fs with
  | nil => intro w; exact ⟨rfl, rfl, rfl⟩
  | cons f fs ih =>
    intro w
    have hp := getPresignedUrl_db w "getObject" f.s3Key 3600 none o
    have hrec := ih (getPresignedUrl w "getObject" f.s3Key 3600 none o).1
    simp only [signAll]
    split
    · rename_i w1 e heq
      rw [heq] at hp hrec
      exact ⟨hrec.1.trans hp.1, hrec.2.1.trans hp.2.1, hrec.2.2.trans hp.2.2⟩
    · rename_i w1 url heq
      rw [heq] at hp hrec
      split
      · rename_i w2 e heq2
        rw [heq2] at hrec
        exact ⟨hrec.1.trans hp.1, hrec.2.1.trans hp.2.1, hrec.2.2.trans hp.2.2⟩
      · rename_i w2 rest heq2
        rw [heq2] at hrec
        exact ⟨hrec.1.trans hp.1, hrec.2.1.trans hp.2.1, hrec.2.2.trans hp.2.2⟩

/-- Effect of `getUserFiles` on the collections: none. -/
theorem getUserFiles_effect (w : World) (user : User) (o : Outcome) :
    DbEffect w (getUserFiles w user o).1 user .list o.updateOk
      (getUserFiles w user o).2.status := by
  have h := signAll_db o
    (w.files.filter (fun f => f.userId == user._id && f.isDeleted == false)) w
  refine Or.inl ?_
  simp only [getUserFiles]
  split
  · rename_i w1 e heq
    rw [heq] at h
    exact ⟨h.1, h.2.1, h.2.2, by simp [Action.isUpload], by simp [Action.isDelete]⟩
  · rename_i w1 l heq
    rw [heq] at h
    exact ⟨h.1, h.2.1, h.2.2, by simp [Action.isUpload], by simp [Action.isDelete]⟩

/-- Effect of `getDownloadUrl` on the collections: none. -/
theorem getDownloadUrl_effect (env : Env) (w : World) (user : User) (id : ParamId)
    (o : Outcome) :
    DbEffect w (getDownloadUrl env w user id o).1 user (.download id) o.updateOk
      (getDownloadUrl env w user id o).2.status := by
  refine Or.inl ?_
  cases id with
  | uncastable raw =>
    exact ⟨rfl, rfl, rfl, by simp [Action.isUpload], by simp [Action.isDelete]⟩
  | objectId oid =>
    simp only [getDownloadUrl]
    split
    · exact ⟨rfl, rfl, rfl, by simp [Action.isUpload], by simp [Action.isDelete]⟩
    · rename_i file hfile
      have h := getPresignedUrl_db w "getObject" file.s3Key 3600
        (some ("attachment; filename=\"" ++ env.encodeURIComponent file.originalName ++
          "\"")) o
      split
      · rename_i w1 e heq
        rw [heq] at h
        exact ⟨h.1, h.2.1, h.2.2, by simp [Action.isUpload], by simp [Action.isDelete]⟩
      · rename_i w1 url heq
        rw [heq] at h
        exact ⟨h.1, h.2.1, h.2.2, by simp [Action.isUpload], by simp [Action.isDelete]⟩

/-- Effect of `getPreviewUrl` on the collections: none. -/
theorem getPreviewUrl_effect (w : World) (user : User) (id : ParamId) (o : Outcome) :
    DbEffect w (getPreviewUrl w user id o).1 user (.preview id) o.updateOk
      (getPreviewUrl w user id o).2.status := by
  refine Or.inl ?_
  cases id with
  | uncastable raw =>
    exact ⟨rfl, rfl, rfl, by simp [Action.isUpload], by simp [Action.isDelete]⟩
  | objectId oid =>
    simp only [getPreviewUrl]
    split
    · exact ⟨rfl, rfl, rfl, by simp [Action.isUpload], by simp [Action.isDelete]⟩
    · rename_i file hfile
      have h := getPresignedUrl_db w "getObject" file.s3Key 3600 none o
      split
      · rename_i w1 e heq
        rw [heq] at h
        exact ⟨h.1, h.2.1, h.2.2, by simp [Action.isUpload], by simp [Action.isDelete]⟩
      · rename_i w1 url heq
        rw [heq] at h
        exact ⟨h.1, h.2.1, h.2.2, by simp [Action.isUpload], by simp [Action.isDelete]⟩

/-- Effect of one routed request: either `protect` answers 401 and the world is
untouched, or the token resolves to a stored user and the handler acts for that user. -/
theorem handle_effect (env : Env) (w : World) (r : Request) :
    ((handle env w r).1 = w ∧ (handle env w r).2.status = 401) ∨
    ∃ cu : User, (bearerToken r.authorization).bind env.jwtVerify = some cu._id ∧
      findById w.users cu._id = some cu ∧
      DbEffect w (handle env w r).1 (selectNoPassword cu) r.action r.outcome.updateOk
        (handle env w r).2.status := by
  unfold handle
  cases hp : protect env w r.authorization with
  | respond response =>
    have hs := (protect_rejection_status env w r.authorization response hp)
    exact Or.inl ⟨rfl, hs⟩
  | next user =>
    obtain ⟨cu, htok, hfind, huser⟩ := protect_next env w r.authorization user hp
    subst huser
    refine Or.inr ⟨cu, htok, hfind, ?_⟩
    cases r.action with
    | list => exact getUserFiles_effect w _ r.outcome
    | upload file => exact initialUpload_effect w _ file r.outcome
    | delete id => exact deleteFile_effect w _ id r.outcome
    | download id => exact getDownloadUrl_effect env w _ id r.outcome
    | preview id => exact getPreviewUrl_effect w _ id r.outcome

/-! ## Counting active records -/

/-- The test of `activeCount` on one record, as a proposition. -/
theorem active_ite (f : File) (uid : String) :
    (if (f.userId == uid && f.isDeleted == false) = true then 1 else 0 : Nat) =
      if f.userId = uid ∧ f.isDeleted = false then 1 else 0 := by
  by_cases h : f.userId = uid ∧ f.isDeleted = false
  · rw [if_pos h, if_pos]
    rw [Bool.and_eq_true, beq_iff_eq, beq_iff_eq]
    exact h
  · rw [if_neg h, if_neg]
    rw [Bool.and_eq_true, beq_iff_eq, beq_iff_eq]
    exact h

/-- Appending one record adds one to the count of its owner when it is not flagged. -/
theorem activeCount_append_one (files : List File) (f : File) (uid : String) :
    activeCount (files ++ [f]) uid =
      activeCount files uid + (if f.userId = uid ∧ f.isDeleted = false then 1 else 0) := by
  unfold activeCount
  rw [List.countP_append, List.countP_cons, List.countP_nil, active_ite, Nat.zero_add]

/-- Filtering out an id that no record has changes nothing. -/
theorem filter_id_of_not_mem (files : List File) (id : Nat)
    (h : id ∉ files.map File._id) : files.filter (fun f => f._id != id) = files := by
  rw [List.filter_eq_self]
  intro f hf
  have : f._id ≠ id := by
    intro he
    apply h
    rw [← he]
    exact List.mem_map_of_mem File._id hf
  simpa using this

/-- Removing, by its id, one record of a collection with pairwise different ids takes
one off the count of its owner when the record is not flagged. -/
theorem activeCount_filter_id (files : List File) (file : File) (uid : String)
    (hnd : (files.map File._id).Nodup) (hmem : file ∈ files) :
    activeCount (files.filter (fun f => f._id != file._id)) uid +
        (if file.userId = uid ∧ file.isDeleted = false then 1 else 0) =
      activeCount files uid := by
  induction files with
  | nil => exact absurd hmem (List.not_mem_nil _)
  | cons g rest ih =>
    rw [List.map_cons, List.nodup_cons] at hnd
    rcases List.mem_cons.mp hmem with hfg | hin
    · subst hfg
      have hrest := filter_id_of_not_mem rest file._id hnd.1
      have hself : (file._id != file._id) = false := by simp
      rw [List.filter_cons, hself]
      simp only [Bool.false_eq_true, if_false]
      rw [hrest]
      unfold activeCount
      rw [List.countP_cons, active_ite]
    · have hne : g._id ≠ file._id := by
        intro he
        apply hnd.1
        rw [he]
        exact List.mem_map_of_mem File._id hin
      have hkeep : (g._id != file._id) = true := by simpa using hne
      rw [List.filter_cons, hkeep]
      simp only [if_true]
      have := ih hnd.2 hin
      unfold activeCount at this ⊢
      rw [List.countP_cons, List.countP_cons]
      omega

/-! ## The stored counter under `$inc` -/

/-- The `$inc` operator does not change the `_id`. -/
theorem incUploadCount_id (id : String) (d : Int) (u : User) :
    (incUploadCount id d u)._id = u._id := by
  unfold incUploadCount
  split <;> rfl

/-- Looking a user up after `$inc` gives the user found before, incremented. -/
theorem findById_map_inc (users : List User) (id uid : String) (d : Int) :
    findById (users.map (incUploadCount id d)) uid =
      (findById users uid).map (incUploadCount id d) := by
  induction users with
  | nil => rfl
  | cons u rest ih =>
    unfold findById at ih ⊢
    rw [List.map_cons, List.find?_cons, List.find?_cons, incUploadCount_id]
    split
    · rfl
    · exact ih

/-! ## Invariants of the collections -/

/-- One request keeps the ids of the `File` collection pairwise different and below
the next id. -/
theorem freshIds_of_effect {w w2 : World} {caller : User} {a : Action} {ok : Bool}
    {status : Nat} (h : DbEffect w w2 caller a ok status) (hF : FreshIds w) :
    FreshIds w2 := by
  obtain ⟨hnd, hlt⟩ := hF
  rcases h with ⟨hf, _, hn, _, _⟩ | ⟨f, _, _, hid, _, _, _, hf, hn, _⟩ |
    ⟨file, _, _, _, _, hf, hn, _⟩
  · unfold FreshIds
    rw [hf, hn]
    exact ⟨hnd, hlt⟩
  · unfold FreshIds
    rw [hf, hn]
    constructor
    · rw [List.map_append, List.nodup_append]
      refine ⟨hnd, List.nodup_singleton _, ?_⟩
      intro x hx hx2
      rw [List.map_cons, List.map_nil, List.mem_singleton] at hx2
      obtain ⟨g, hg, hgx⟩ := List.mem_map.mp hx
      have := hlt g hg
      omega
    · intro g hg
      rcases List.mem_append.mp hg with hg1 | hg2
      · have := hlt g hg1
        omega
      · rw [List.mem_singleton] at hg2
        rw [hg2, hid]
        omega
  · unfold FreshIds
    rw [hf, hn]
    constructor
    · exact List.Nodup.sublist ((List.filter_sublist w.files).map File._id) hnd
    · intro g hg
      exact hlt g (List.mem_of_mem_filter hg)

/-- One request leaves every record unflagged. -/
theorem noneFlagged_of_effect {w w2 : World} {caller : User} {a : Action} {ok : Bool}
    {status : Nat} (h : DbEffect w w2 caller a ok status) (hN : NoneFlagged w) :
    NoneFlagged w2 := by
  rcases h with ⟨hf, _, _, _, _⟩ | ⟨f, _, _, _, _, hdel, _, hf, _, _⟩ |
    ⟨file, _, _, _, _, hf, _, _⟩
  · unfold NoneFlagged
    rw [hf]
    exact hN
  · unfold NoneFlagged
    rw [hf]
    intro g hg
    rcases List.mem_append.mp hg with hg1 | hg2
    · exact hN g hg1
    · rw [List.mem_singleton] at hg2
      rw [hg2]
      exact hdel
  · unfold NoneFlagged
    rw [hf]
    intro g hg
    exact hN g (List.mem_of_mem_filter hg)

/-- An id that was handed out and names no record stays so through one request. -/
theorem gone_of_effect {w w2 : World} {caller : User} {a : Action} {ok : Bool}
    {status : Nat} {id : Nat} (h : DbEffect w w2 caller a ok status) (hG : Gone w id) :
    Gone w2 id := by
  obtain ⟨hlt, hno⟩ := hG
  rcases h with ⟨hf, _, hn, _, _⟩ | ⟨f, _, _, hid, _, _, _, hf, hn, _⟩ |
    ⟨file, _, _, _, _, hf, hn, _⟩
  · unfold Gone
    rw [hf, hn]
    exact ⟨hlt, hno⟩
  · unfold Gone
    rw [hf, hn]
    refine ⟨by omega, ?_⟩
    intro g hg
    rcases List.mem_append.mp hg with hg1 | hg2
    · exact hno g hg1
    · rw [List.mem_singleton] at hg2
      rw [hg2, hid]
      omega
  · unfold Gone
    rw [hf, hn]
    refine ⟨hlt, ?_⟩
    intro g hg
    exact hno g (List.mem_of_mem_filter hg)

/-- One request leaves every record owned by `uid` unflagged. -/
theorem unflaggedOf_of_effect {w w2 : World} {caller : User} {a : Action} {ok : Bool}
    {status : Nat} (uid : String) (h : DbEffect w w2 caller a ok status)
    (hN : UnflaggedOf w uid) : UnflaggedOf w2 uid := by
  rcases h with ⟨hf, _, _, _, _⟩ | ⟨f, _, _, _, _, hdel, _, hf, _, _⟩ |
    ⟨file, _, _, _, _, hf, _, _⟩
  · unfold UnflaggedOf
    rw [hf]
    exact hN
  · unfold UnflaggedOf
    rw [hf]
    intro g hg hown
    rcases List.mem_append.mp hg with hg1 | hg2
    · exact hN g hg1 hown
    · rw [List.mem_singleton] at hg2
      rw [hg2]
      exact hdel
  · unfold UnflaggedOf
    rw [hf]
    intro g hg hown
    exact hN g (List.mem_of_mem_filter hg) hown

/-- When the counter update of the request resolves, one request keeps the stored
counter of every user equal to the number of that user's active records. -/
theorem countOK_of_effect {w w2 : World} {caller : User} {a : Action} {status : Nat}
    (uid : String) (h : DbEffect w w2 caller a true status) (hF : FreshIds w)
    (hN : UnflaggedOf w uid) (hc : CountOK w uid) : CountOK w2 uid := by
  rcases h with ⟨hf, hu, _, _, _⟩ | ⟨f, _, _, _, hown, hdel, _, hf, _, hupd⟩ |
    ⟨file, _, _, hmem, hown, hf, _, hupd⟩
  · unfold CountOK
    rw [hf, hu]
    exact hc
  · rcases hupd with ⟨_, hu, _⟩ | ⟨hfalse, _, _⟩
    swap
    · exact absurd hfalse (by simp)
    unfold CountOK
    rw [hf, hu, findById_map_inc, activeCount_append_one]
    intro usr husr
    cases hfind : findById w.users uid with
    | none => rw [hfind] at husr; exact absurd husr (by simp)
    | some usr0 =>
      rw [hfind, Option.map_some', Option.some.injEq] at husr
      have hid := findById_id hfind
      have hcount := hc usr0 hfind
      subst husr
      unfold incUploadCount
      by_cases hcu : caller._id = uid
      · rw [if_pos (hid.trans hcu.symm), if_pos ⟨hown.trans hcu, hdel⟩]
        simp only [hcount]
        push_cast
        rfl
      · have hne : ¬ usr0._id = caller._id := fun he => hcu (he.symm.trans hid)
        have hne2 : ¬ (f.userId = uid ∧ f.isDeleted = false) :=
          fun he => hcu (hown.symm.trans he.1)
        rw [if_neg hne, if_neg hne2, hcount]
        rfl
  · rcases hupd with ⟨_, hu, _⟩ | ⟨hfalse, _, _⟩
    swap
    · exact absurd hfalse (by simp)
    have hrem := activeCount_filter_id w.files file uid hF.1 hmem
    unfold CountOK
    rw [hf, hu, findById_map_inc]
    intro usr husr
    cases hfind : findById w.users uid with
    | none => rw [hfind] at husr; exact absurd husr (by simp)
    | some usr0 =>
      rw [hfind, Option.map_some', Option.some.injEq] at husr
      have hid := findById_id hfind
      have hcount := hc usr0 hfind
      subst husr
      unfold incUploadCount
      by_cases hcu : caller._id = uid
      · rw [if_pos ⟨hown.trans hcu, hN file hmem (hown.trans hcu)⟩] at hrem
        rw [if_pos (hid.trans hcu.symm)]
        simp only [hcount]
        omega
      · have hne : ¬ usr0._id = caller._id := fun he => hcu (he.symm.trans hid)
        have hne2 : ¬ (file.userId = uid ∧ file.isDeleted = false) :=
          fun he => hcu (hown.symm.trans he.1)
        rw [if_neg hne2] at hrem
        rw [if_neg hne, hcount]
        omega

/-! ## The counter of one user along a sequence of requests -/

/-- The counter of the caller after one request whose counter update resolves: it
moves by `delta`, and stays at most 15. -/
theorem stored_of_effect {w w2 : World} {caller : User} {a : Action} {status : Nat}
    (u : String) (c : Int) (h : DbEffect w w2 caller a true status)
    (hcaller : caller._id = u) (hcc : caller.uploadCount = c)
    (hs : storedCount w u = some c) (h15 : c ≤ 15) :
    storedCount w2 u = some (c + delta a status) ∧ c + delta a status ≤ 15 := by
  rcases h with ⟨_, hu, _, h201, h200⟩ | ⟨f, hup, hdl, _, _, _, hq, _, _, hupd⟩ |
    ⟨file, hact, hup, _, _, _, _, hupd⟩
  · have hd : delta a status = 0 := by
      unfold delta
      rw [if_neg, if_neg]
      · rfl
      · simpa using h200
      · simpa using h201
    rw [hd]
    unfold storedCount
    rw [hu]
    exact ⟨by simpa [storedCount] using hs, by omega⟩
  · rcases hupd with ⟨_, hu, hst⟩ | ⟨hfalse, _, _⟩
    swap
    · exact absurd hfalse (by simp)
    have hd : delta a status = 1 := by
      unfold delta
      rw [hup, hdl, hst]
      rfl
    rw [hd]
    unfold storedCount at hs ⊢
    rw [hu, findById_map_inc]
    cases hfind : findById w.users u with
    | none => rw [hfind] at hs; exact absurd hs (by simp)
    | some usr0 =>
      rw [hfind, Option.map_some', Option.some.injEq] at hs
      have hid := findById_id hfind
      refine ⟨?_, by omega⟩
      rw [Option.map_some', Option.map_some', Option.some.injEq]
      unfold incUploadCount
      rw [if_pos (hid.trans hcaller.symm)]
      simp only [hs]
  · rcases hupd with ⟨_, hu, hst⟩ | ⟨hfalse, _, _⟩
    swap
    · exact absurd hfalse (by simp)
    have hd : delta a status = -1 := by
      unfold delta
      rw [hact, hst]
      rfl
    rw [hd]
    unfold storedCount at hs ⊢
    rw [hu, findById_map_inc]
    cases hfind : findById w.users u with
    | none => rw [hfind] at hs; exact absurd hs (by simp)
    | some usr0 =>
      rw [hfind, Option.map_some', Option.some.injEq] at hs
      have hid := findById_id hfind
      refine ⟨?_, by omega⟩
      rw [Option.map_some', Option.map_some', Option.some.injEq]
      unfold incUploadCount
      rw [if_pos (hid.trans hcaller.symm)]
      simp only [hs]

/-- One request of user `u` in which every call resolves: the invariants of the
collections are kept and the stored counter of `u` moves by `delta`. -/
theorem handle_tracks (env : Env) (w : World) (r : Request) (u : String) (c : Int)
    (hF : FreshIds w) (hN : UnflaggedOf w u) (hC : CountOK w u)
    (hs : storedCount w u = some c) (h15 : c ≤ 15)
    (hby : r.byUser env u) (hok : r.outcome.allOk) :
    FreshIds (handle env w r).1 ∧ UnflaggedOf (handle env w r).1 u ∧
    CountOK (handle env w r).1 u ∧
    storedCount (handle env w r).1 u = some (c + delta r.action (handle env w r).2.status) ∧
    c + delta r.action (handle env w r).2.status ≤ 15 := by
  rcases handle_effect env w r with ⟨hw, hst⟩ | ⟨cu, htok, hfind, heff⟩
  · have hd : delta r.action (handle env w r).2.status = 0 := by
      unfold delta
      rw [hst]
      simp
    rw [hd, hw]
    exact ⟨hF, hN, hC, by simpa using hs, by omega⟩
  · have hcu : cu._id = u := by
      unfold Request.byUser at hby
      rw [htok, Option.some.injEq] at hby
      exact hby
    rw [hok.2.2.1] at heff
    have hcc : cu.uploadCount = c := by
      unfold storedCount at hs
      rw [← hcu, hfind, Option.map_some', Option.some.injEq] at hs
      exact hs
    have hst := stored_of_effect u c heff hcu hcc hs h15
    exact ⟨freshIds_of_effect heff hF, unflaggedOf_of_effect u heff hN,
      countOK_of_effect u heff hF hN hC, hst.1, hst.2⟩

/-- The two tallies of a sequence, split at its first request. -/
theorem tallies_cons (r : Request) (rs : List Request) (x : Response) (xs : List Response) :
    ((uploads201 (r :: rs) (x :: xs) : Nat) : Int) - (deletes200 (r :: rs) (x :: xs) : Nat) =
      delta r.action x.status + (((uploads201 rs xs : Nat) : Int) - (deletes200 rs xs : Nat)) := by
  unfold uploads201 deletes200 delta
  rw [List.zip_cons_cons, List.countP_cons, List.countP_cons]
  push_cast
  split <;> split <;> simp <;> omega

/-- Along a sequence of requests of user `u` in which every call resolves, the stored
counter of `u` is the starting value plus the uploads answered 201 minus the deletes
answered 200, and the invariants of the collections are kept. -/
theorem run_tracks (env : Env) (u : String) (rs : List Request) :
    ∀ (w : World) (c : Int), FreshIds w → UnflaggedOf w u → CountOK w u →
      storedCount w u = some c → c ≤ 15 →
      (∀ r ∈ rs, r.byUser env u ∧ r.outcome.allOk) →
      CountOK (run env w rs).1 u ∧
      storedCount (run env w rs).1 u =
        some (c + (((uploads201 rs (run env w rs).2 : Nat) : Int) -
          (deletes200 rs (run env w rs).2 : Nat))) ∧
      c + (((uploads201 rs (run env w rs).2 : Nat) : Int) -
          (deletes200 rs (run env w rs).2 : Nat)) ≤ 15 := by
  induction rs with
  | nil =>
    intro w c _ _ hC hs h15 _
    simp only [run, uploads201, deletes200, List.zip_nil_right, List.countP_nil]
    exact ⟨hC, by simpa using hs, by simpa using h15⟩
  | cons r rs ih =>
    intro w c hF hN hC hs h15 hreq
    have hr := hreq r (List.mem_cons_self r rs)
    obtain ⟨hF1, hN1, hC1, hs1, h151⟩ := handle_tracks env w r u c hF hN hC hs h15 hr.1 hr.2
    have hrest := ih (handle env w r).1 _ hF1 hN1 hC1 hs1 h151
      (fun q hq => hreq q (List.mem_cons_of_mem r hq))
    simp only [run]
    rw [tallies_cons]
    refine ⟨hrest.1, ?_, ?_⟩
    · rw [hrest.2.1]
      congr 1
      omega
    · have := hrest.2.2
      omega

/-- The empty `File` collection has fresh ids. -/
theorem freshIds_of_no_files (w : World) (h : w.files = []) : FreshIds w := by
  unfold FreshIds
  rw [h]
  exact ⟨List.nodup_nil, fun f hf => absurd hf (List.not_mem_nil f)⟩

/-- The empty `File` collection has no flagged record. -/
theorem noneFlagged_of_no_files (w : World) (h : w.files = []) : NoneFlagged w := by
  unfold NoneFlagged
  rw [h]
  exact fun f hf => absurd hf (List.not_mem_nil f)

/-- C1: start from a world in which user `u` has `uploadCount` 0 and owns no file
record (other users may own records; ids are fresh, as the database guarantees), and
serve any sequence of requests that carry a token of `u` and in which every write and
gateway call resolves. After any number `k` of these requests the stored `uploadCount`
of `u` is the number of uploads answered 201 minus the number of deletes answered 200,
and it lies between 0 and 15. -/
theorem uploadCount_eq_uploads_minus_deletes (env : Env) (w0 : World) (u : String)
    (rs : List Request) (k : Nat) (hfresh : FreshIds w0)
    (hnone : ∀ f ∈ w0.files, f.userId ≠ u)
    (hcount : storedCount w0 u = some 0)
    (hreq : ∀ r ∈ rs, r.byUser env u ∧ r.outcome.allOk) :
    storedCount (run env w0 (rs.take k)).1 u =
      some (((uploads201 (rs.take k) (run env w0 (rs.take k)).2 : Nat) : Int) -
        (deletes200 (rs.take k) (run env w0 (rs.take k)).2 : Nat)) ∧
    (0 : Int) ≤ ((uploads201 (rs.take k) (run env w0 (rs.take k)).2 : Nat) : Int) -
        (deletes200 (rs.take k) (run env w0 (rs.take k)).2 : Nat) ∧
    ((uploads201 (rs.take k) (run env w0 (rs.take k)).2 : Nat) : Int) -
        (deletes200 (rs.take k) (run env w0 (rs.take k)).2 : Nat) ≤ 15 := by
  have hzero : activeCount w0.files u = 0 := by
    unfold activeCount
    rw [List.countP_eq_zero]
    intro f hf
    have := hnone f hf
    simp [this]
  have hU : UnflaggedOf w0 u := fun f hf hown => absurd hown (hnone f hf)
  have hC : CountOK w0 u := by
    intro usr husr
    unfold storedCount at hcount
    rw [husr, Option.map_some', Option.some.injEq] at hcount
    rw [hcount, hzero]
    rfl
  have hpre : ∀ r ∈ rs.take k, r.byUser env u ∧ r.outcome.allOk :=
    fun r hr => hreq r (List.mem_of_mem_take hr)
  obtain ⟨hCk, hsk, h15⟩ := run_tracks env u (rs.take k) w0 0 hfresh hU hC hcount
    (by omega) hpre
  rw [Int.zero_add] at hsk h15
  refine ⟨hsk, ?_, h15⟩
  unfold storedCount at hsk
  cases hfind : findById (run env w0 (rs.take k)).1.users u with
  | none => rw [hfind] at hsk; exact absurd hsk (by simp)
  | some usr =>
    rw [hfind, Option.map_some', Option.some.injEq] at hsk
    have := hCk usr hfind
    rw [← hsk, this]
    exact Int.natCast_nonneg _

/-- Witness for C1: in a world where `bob` already owns a file, `alice` uploads
twice, asks to delete the file of `bob` (answered 404), and deletes the first upload. -/
theorem uploadCount_eq_uploads_minus_deletes_witness :
    storedCount (run demoEnv demoWorld ([uploadReq, uploadReq2, deleteReq 0, deleteReq 1].take 4)).1 "u1" =
      some (((uploads201 ([uploadReq, uploadReq2, deleteReq 0, deleteReq 1].take 4)
          (run demoEnv demoWorld ([uploadReq, uploadReq2, deleteReq 0, deleteReq 1].take 4)).2 : Nat) : Int) -
        (deletes200 ([uploadReq, uploadReq2, deleteReq 0, deleteReq 1].take 4)
          (run demoEnv demoWorld ([uploadReq, uploadReq2, deleteReq 0, deleteReq 1].take 4)).2 : Nat)) ∧
    (0 : Int) ≤ ((uploads201 ([uploadReq, uploadReq2, deleteReq 0, deleteReq 1].take 4)
          (run demoEnv demoWorld ([uploadReq, uploadReq2, deleteReq 0, deleteReq 1].take 4)).2 : Nat) : Int) -
        (deletes200 ([uploadReq, uploadReq2, deleteReq 0, deleteReq 1].take 4)
          (run demoEnv demoWorld ([uploadReq, uploadReq2, deleteReq 0, deleteReq 1].take 4)).2 : Nat) ∧
    ((uploads201 ([uploadReq, uploadReq2, deleteReq 0, deleteReq 1].take 4)
          (run demoEnv demoWorld ([uploadReq, uploadReq2, deleteReq 0, deleteReq 1].take 4)).2 : Nat) : Int) -
        (deletes200 ([uploadReq, uploadReq2, deleteReq 0, deleteReq 1].take 4)
          (run demoEnv demoWorld ([uploadReq, uploadReq2, deleteReq 0, deleteReq 1].take 4)).2 : Nat) ≤ 15 :=
  uploadCount_eq_uploads_minus_deletes demoEnv demoWorld "u1"
    [uploadReq, uploadReq2, deleteReq 0, deleteReq 1] 4 ⟨by decide, by decide⟩ (by decide)
    (by decide)
    (by
      intro r hr
      simp only [List.mem_cons, List.mem_singleton, List.not_mem_nil, or_false] at hr
      rcases hr with h | h | h | h <;> subst h <;>
        exact ⟨by decide, rfl, rfl, rfl, rfl, rfl⟩)

/-! ## Every user's counter along a sequence of requests -/

/-- One request in which every call resolves keeps the invariants of the collections
and the agreement of every stored counter with the active records. -/
theorem handle_countOK (env : Env) (w : World) (r : Request) (hF : FreshIds w)
    (hN : NoneFlagged w) (hC : ∀ uid, CountOK w uid) (hok : r.outcome.allOk) :
    FreshIds (handle env w r).1 ∧ NoneFlagged (handle env w r).1 ∧
    ∀ uid, CountOK (handle env w r).1 uid := by
  rcases handle_effect env w r with ⟨hw, _⟩ | ⟨cu, _, _, heff⟩
  · rw [hw]
    exact ⟨hF, hN, hC⟩
  · have heff2 := heff
    rw [hok.2.2.1] at heff2
    exact ⟨freshIds_of_effect heff hF, noneFlagged_of_effect heff hN,
      fun uid => countOK_of_effect uid heff2 hF (fun f hf _ => hN f hf) (hC uid)⟩

/-- A sequence of requests in which every call resolves keeps every stored counter
equal to the number of active records of its user. -/
theorem run_countOK (env : Env) (rs : List Request) :
    ∀ w : World, FreshIds w → NoneFlagged w → (∀ uid, CountOK w uid) →
      (∀ r ∈ rs, r.outcome.allOk) → ∀ uid, CountOK (run env w rs).1 uid := by
  induction rs with
  | nil =>
    intro w _ _ hC _
    exact hC
  | cons r rs ih =>
    intro w hF hN hC hreq
    obtain ⟨hF1, hN1, hC1⟩ :=
      handle_countOK env w r hF hN hC (hreq r (List.mem_cons_self r rs))
    exact ih (handle env w r).1 hF1 hN1 hC1 (fun q hq => hreq q (List.mem_cons_of_mem r hq))

/-- C5: start from a world with no file records in which every user has `uploadCount`
0, and serve any sequence of requests of any users in which every write and gateway
call resolves (a request may still be rejected by the handler's own tests). In the
state reached, the `uploadCount` stored for a user id equals the number of `File`
records with that owner and `isDeleted` false. -/
theorem uploadCount_eq_active_records (env : Env) (w0 : World) (rs : List Request)
    (uid : String) (usr : User) (hfiles : w0.files = [])
    (hzero : ∀ u ∈ w0.users, u.uploadCount = 0)
    (hreq : ∀ r ∈ rs, r.outcome.allOk)
    (hstored : findById (run env w0 rs).1.users uid = some usr) :
    usr.uploadCount = activeCount (run env w0 rs).1.files uid := by
  have hC : ∀ id, CountOK w0 id := by
    intro id u0 hu0
    have hmem : u0 ∈ w0.users := List.mem_of_find?_eq_some hu0
    rw [hzero u0 hmem, hfiles]
    rfl
  exact run_countOK env rs w0 (freshIds_of_no_files w0 hfiles)
    (noneFlagged_of_no_files w0 hfiles) hC hreq uid usr hstored

/-- Witness for C5: `alice` and `bob` each upload, then `alice` deletes that upload;
the counter stored for `bob` is 1, as is the number of active records of `bob`. -/
theorem uploadCount_eq_active_records_witness :
    (⟨"u2", "b@x.com", "Bob", some "pw2", 1⟩ : User).uploadCount =
      activeCount (run demoEnv freshWorld [uploadReq, uploadReqBob, deleteReq 0]).1.files "u2" :=
  uploadCount_eq_active_records demoEnv freshWorld [uploadReq, uploadReqBob, deleteReq 0]
    "u2" ⟨"u2", "b@x.com", "Bob", some "pw2", 1⟩ rfl (by decide)
    (by
      intro r hr
      simp only [List.mem_cons, List.mem_singleton, List.not_mem_nil, or_false] at hr
      rcases hr with h | h | h <;> subst h <;> exact ⟨rfl, rfl, rfl, rfl, rfl⟩)
    (by decide)

/-! ## Deleted files -/

/-- Any request keeps a handed-out id that names no record in that state. -/
theorem handle_gone (env : Env) (w : World) (r : Request) (id : Nat) (hG : Gone w id) :
    Gone (handle env w r).1 id := by
  rcases handle_effect env w r with ⟨hw, _⟩ | ⟨cu, _, _, heff⟩
  · rw [hw]
    exact hG
  · exact gone_of_effect heff hG

/-- Any sequence of requests keeps a handed-out id that names no record in that state. -/
theorem run_gone (env : Env) (id : Nat) (rs : List Request) :
    ∀ w : World, Gone w id → Gone (run env w rs).1 id := by
  induction rs with
  | nil => intro w hG; exact hG
  | cons r rs ih => intro w hG; exact ih (handle env w r).1 (handle_gone env w r id hG)

/-- A delete answered 200 leaves no record with the id, and the id is used up. -/
theorem gone_of_deleted (w : World) (user : User) (id : Nat) (o : Outcome)
    (hF : FreshIds w) (h200 : (deleteFile w user (.objectId id) o).2.status = 200) :
    Gone (deleteFile w user (.objectId id) o).1 id := by
  rcases deleteFile_effect w user (.objectId id) o with ⟨_, _, _, _, hno⟩ |
    ⟨f, hup, _⟩ | ⟨file, hact, _, hmem, _, hf, hn, _⟩
  · exact absurd ⟨rfl, h200⟩ hno
  · exact absurd hup (by simp [Action.isUpload])
  · have hid : id = file._id := by
      simpa using hact
    unfold Gone
    rw [hf, hn, hid]
    refine ⟨hF.2 file hmem, ?_⟩
    intro g hg
    have := (List.mem_filter.mp hg).2
    simpa using this

/-- The entries `signAll` returns are among the files it was given. -/
theorem signAll_entries (o : Outcome) (fs : List File) :
    ∀ (w w2 : World) (l : List (File × String)), signAll w o fs = (w2, .ok l) →
      ∀ e ∈ l, e.1 ∈ fs := by
  induction fs with
  | nil =>
    intro w w2 l h e he
    simp only [signAll, Prod.mk.injEq, Except.ok.injEq] at h
    rw [← h.2] at he
    exact absurd he (List.not_mem_nil e)
  | cons f fs ih =>
    intro w w2 l h e he
    simp only [signAll] at h
    split at h
    · simp at h
    · rename_i w1 url heq
      split at h
      · simp at h
      · rename_i w3 rest heq2
        simp only [Prod.mk.injEq, Except.ok.injEq] at h
        rw [← h.2] at he
        rcases List.mem_cons.mp he with he1 | he2
        · rw [he1]
          exact List.mem_cons_self f fs
        · exact List.mem_cons_of_mem f (ih w1 w3 rest heq2 e he2)

/-- C9: after a delete of `id` answered 200 (in a collection with fresh ids), and
after any further requests of any users, a download or preview request for `id` is
answered 404 "File not found" and leaves the world as it is (no gateway request is
sent), and no entry of a listing has that id; this for any caller, in particular the
user who deleted the file. -/
theorem deleted_file_not_served (env : Env) (w : World) (user caller : User) (id : Nat)
    (o o2 : Outcome) (rs : List Request) (hF : FreshIds w)
    (h200 : (deleteFile w user (.objectId id) o).2.status = 200) :
    getDownloadUrl env (run env (deleteFile w user (.objectId id) o).1 rs).1 caller
        (.objectId id) o2 =
      ((run env (deleteFile w user (.objectId id) o).1 rs).1, fileNotFound) ∧
    getPreviewUrl (run env (deleteFile w user (.objectId id) o).1 rs).1 caller
        (.objectId id) o2 =
      ((run env (deleteFile w user (.objectId id) o).1 rs).1, fileNotFound) ∧
    ∀ e ∈ listedFiles
        (getUserFiles (run env (deleteFile w user (.objectId id) o).1 rs).1 caller o2).2,
      e.1._id ≠ id := by
  have hG := run_gone env id rs _ (gone_of_deleted w user id o hF h200)
  generalize (run env (deleteFile w user (.objectId id) o).1 rs).1 = w2 at hG
  have hnone : findActive w2 caller id = none := by
    unfold findActive
    rw [List.find?_eq_none]
    intro f hf
    have := hG.2 f hf
    simp [this]
  refine ⟨by simp [getDownloadUrl, hnone], by simp [getPreviewUrl, hnone], ?_⟩
  intro e he
  cases hsig : signAll w2 o2
      (w2.files.filter (fun f => f.userId == caller._id && f.isDeleted == false)) with
  | mk w3 res =>
    cases res with
    | error msg =>
      simp only [getUserFiles, hsig, listedFiles] at he
      exact absurd he (List.not_mem_nil e)
    | ok l =>
      simp only [getUserFiles, hsig, listedFiles] at he
      have hin := signAll_entries o2 _ w2 w3 l hsig e he
      exact hG.2 e.1 (List.mem_of_mem_filter hin)

/-- Witness for C9: `bob` deletes the file `bobFile`, `alice` uploads, `bob` asks
for the deleted file. -/
theorem deleted_file_not_served_witness :
    getDownloadUrl demoEnv
        (run demoEnv (deleteFile demoWorld bob (.objectId 0) okOutcome).1 [uploadReq]).1
        bob (.objectId 0) okOutcome =
      ((run demoEnv (deleteFile demoWorld bob (.objectId 0) okOutcome).1 [uploadReq]).1,
        fileNotFound) ∧
    getPreviewUrl
        (run demoEnv (deleteFile demoWorld bob (.objectId 0) okOutcome).1 [uploadReq]).1
        bob (.objectId 0) okOutcome =
      ((run demoEnv (deleteFile demoWorld bob (.objectId 0) okOutcome).1 [uploadReq]).1,
        fileNotFound) ∧
    ∀ e ∈ listedFiles (getUserFiles
        (run demoEnv (deleteFile demoWorld bob (.objectId 0) okOutcome).1 [uploadReq]).1
        bob okOutcome).2,
      e.1._id ≠ 0 :=
  deleted_file_not_served demoEnv demoWorld bob bob 0 okOutcome okOutcome [uploadReq]
    ⟨by decide, by decide⟩ (by decide)

end FileUploader
